import Mathlib

/-!
Verification of the password-generator core: a shallow embedding of the
worker's sampling/validation code (`generate-password.worker.js`), the
character classifier (`src/util/classifyCharacter.js`) and the coordinator
(`PasswordGeneratorUtil`), with theorems settling the specification claims.

Strings are embedded as lists of character codes (`List Nat`, the values
`String.prototype.charCodeAt` yields).  JavaScript numbers that hold
proportions are embedded as rationals; where the source can produce `NaN`
or `Infinity` (division by a zero denominator) the embedding carries the
JavaScript comparison semantics explicitly.  Randomness is embedded as an
explicit stream (list) of byte draws, and wall-clock timeout checks as an
explicit stream of boolean "time is up" observations.
-/

namespace PasswordGenerator

/-- The five classification results of `classifyCharacter`; the JS function
returns one of the strings `digit`, `uppercase`, `lowercase`, `symbol`, or
`null`, embedded here as `CharClass.none`. -/
inductive CharClass where
  | digit
  | uppercase
  | lowercase
  | symbol
  | none
deriving DecidableEq, Repr

/-- Embedding of `classifyCharacter` from `src/util/classifyCharacter.js`:
the cascade of range tests on the character code. -/
def classifyCharacter (character : Nat) : CharClass :=
  if 48 ≤ character ∧ character ≤ 57 then CharClass.digit
  else if 65 ≤ character ∧ character ≤ 90 then CharClass.uppercase
  else if 97 ≤ character ∧ character ≤ 122 then CharClass.lowercase
  else if (32 ≤ character ∧ character ≤ 47) ∨ (58 ≤ character ∧ character ≤ 64)
      ∨ (91 ≤ character ∧ character ≤ 96) ∨ (123 ≤ character ∧ character ≤ 126) then
    CharClass.symbol
  else CharClass.none

/-- `bound = max - min + 1` from `getRandomByteInRange`. -/
def bound (min max : Nat) : Nat := max - min + 1

/-- `Math.floor((0xff + 1) / bound) * bound` from `getRandomByteInRange`:
the rejection-sampling limit. -/
def limit (min max : Nat) : Nat := (255 + 1) / bound min max * bound min max

/-- Embedding of `getRandomByteInRange` from the worker: draws bytes from the
stream `draws`, discarding a draw while `randomUint8 > limit - 1` (the JS
do/while condition, taken over ℤ so the `- 1` is exact), and returning
`(draw % bound) + min` together with the unconsumed rest of the stream.
`none` models running out of the modelled byte stream. -/
def getRandomByteInRange (min max : Nat) : List Nat → Option (Nat × List Nat)
  | [] => Option.none
  | b :: rest =>
    if (b : ℤ) > (limit min max : ℤ) - 1 then getRandomByteInRange min max rest
    else some (b % bound min max + min, rest)

/-- Embedding of the `PasswordGenerationOptions` object (see the typedef in
`PasswordGeneratorUtil.js`).  Proportions and the case-variance bound are
JS numbers, embedded as rationals; `symbols` is a string, embedded as its
list of character codes. -/
structure PasswordGenerationOptions where
  passwordLength : Nat
  minDigitProportion : ℚ
  minSymbolProportion : ℚ
  maxCaseVariance : ℚ
  useLowercase : Bool
  useUppercase : Bool
  useDigits : Bool
  useSymbols : Bool
  symbols : List Nat

/-- `Map.prototype.set` on the tally map of `passwordIsValid`: point update
of the finite map from classes to counts. -/
def mapSet (m : CharClass → Option Nat) (k : CharClass) (v : Nat) :
    CharClass → Option Nat :=
  fun k2 => if k2 = k then some v else m k2

/-- One iteration of the tally loop of `passwordIsValid`: classify the
character, then `set(cls, 1)` if the map has no entry for `cls`, else
`set(cls, get(cls) + 1)`. -/
def countStep (m : CharClass → Option Nat) (c : Nat) : CharClass → Option Nat :=
  if (m (classifyCharacter c)).isSome = false then
    mapSet m (classifyCharacter c) 1
  else
    mapSet m (classifyCharacter c) ((m (classifyCharacter c)).getD 0 + 1)

/-- The `characterCount` map built by the loop of `passwordIsValid`,
starting from an empty `Map`. -/
def characterCountMap (password : List Nat) : CharClass → Option Nat :=
  password.foldl countStep (fun _ => Option.none)

/-- JavaScript semantics of `a / len >= p` for natural `a`, `len` and a
finite number `p`: when `len = 0` the division yields `NaN` (if `a = 0`) or
`+Infinity` (if `a > 0`), making the comparison false resp. true; otherwise
it is the exact comparison.  This is how the proportion conditions of
`passwordIsValid` evaluate. -/
def jsDivGE (a len : Nat) (p : ℚ) : Bool :=
  if len = 0 then decide (0 < a) else decide (p ≤ (a : ℚ) / (len : ℚ))

/-- JavaScript semantics of `2 * Math.abs(lower / letters - 0.5) <= v` for
natural counts: when `letters = 0` the division yields `NaN` or `+Infinity`
and the comparison is false; otherwise it is exact. -/
def jsCaseOK (lower letters : Nat) (v : ℚ) : Bool :=
  if letters = 0 then false
  else decide (2 * |(lower : ℚ) / (letters : ℚ) - 1/2| ≤ v)

/-- Embedding of `passwordIsValid` from the worker: tally the character
classes into a `Map`, read the four counts back with `get(...) || 0`, and
test the three guarded proportion/variance conditions. -/
def passwordIsValid (password : List Nat) (options : PasswordGenerationOptions) :
    Bool :=
  let characterCount := characterCountMap password
  let digits := (characterCount CharClass.digit).getD 0
  let symbols := (characterCount CharClass.symbol).getD 0
  let lowercase := (characterCount CharClass.lowercase).getD 0
  let uppercase := (characterCount CharClass.uppercase).getD 0
  let letters := lowercase + uppercase
  (!options.useDigits
      || jsDivGE digits password.length options.minDigitProportion)
    && (!(options.useSymbols && decide (0 < options.symbols.length))
      || jsDivGE symbols password.length options.minSymbolProportion)
    && (!(decide (0 < letters) && options.useUppercase && options.useLowercase)
      || jsCaseOK lowercase letters options.maxCaseVariance)

/-- Direct per-class count over the candidate, the reference against which
the `Map`-based tally is proved correct. -/
def classCount (cls : CharClass) (password : List Nat) : Nat :=
  password.countP (fun c => classifyCharacter c = cls)

/-- The specification's reading of the validator, with total (field)
division everywhere — meaningful because a denominator is only consulted
when it is positive. -/
def passwordIsValidRealDiv (password : List Nat)
    (options : PasswordGenerationOptions) : Bool :=
  let digits := classCount CharClass.digit password
  let symbols := classCount CharClass.symbol password
  let lowercase := classCount CharClass.lowercase password
  let uppercase := classCount CharClass.uppercase password
  let letters := lowercase + uppercase
  (!options.useDigits
      || decide (options.minDigitProportion ≤ (digits : ℚ) / (password.length : ℚ)))
    && (!(options.useSymbols && decide (0 < options.symbols.length))
      || decide (options.minSymbolProportion ≤ (symbols : ℚ) / (password.length : ℚ)))
    && (!(decide (0 < letters) && options.useUppercase && options.useLowercase)
      || decide (2 * |(lowercase : ℚ) / (letters : ℚ) - 1/2| ≤ options.maxCaseVariance))

/-- Character codes of `'ABCDEFGHIJKLMNOPQRSTUVWXYZ'`. -/
def upperChars : List Nat :=
  [65, 66, 67, 68, 69, 70, 71, 72, 73, 74, 75, 76, 77, 78, 79, 80, 81, 82,
    83, 84, 85, 86, 87, 88, 89, 90]

/-- Character codes of `'abcdefghijklmnopqrstuvwxyz'`. -/
def lowerChars : List Nat :=
  [97, 98, 99, 100, 101, 102, 103, 104, 105, 106, 107, 108, 109, 110, 111,
    112, 113, 114, 115, 116, 117, 118, 119, 120, 121, 122]

/-- Character codes of `'0123456789'`. -/
def digitChars : List Nat :=
  [48, 49, 50, 51, 52, 53, 54, 55, 56, 57]

/-- The alphabet `passwordChars` built by `generatePassword`: the enabled
classes concatenated in the source's fixed order — uppercase, lowercase,
digits, then `options.symbols`. -/
def passwordChars (options : PasswordGenerationOptions) : List Nat :=
  (if options.useUppercase then upperChars else [])
    ++ (if options.useLowercase then lowerChars else [])
    ++ (if options.useDigits then digitChars else [])
    ++ (if options.useSymbols then options.symbols else [])

/-- Embedding of `generateRandomString` from the worker: draw one index per
position with `getRandomByteInRange(0, characters.length - 1)` and pick
that character.  An out-of-range index (JS would yield `undefined`) and an
exhausted draw stream are modelled as failure. -/
def generateRandomString : Nat → List Nat → List Nat → Option (List Nat × List Nat)
  | 0, _, draws => some ([], draws)
  | n + 1, characters, draws =>
    match getRandomByteInRange 0 (characters.length - 1) draws with
    | Option.none => Option.none
    | some (idx, rest) =>
      match characters.get? idx with
      | Option.none => Option.none
      | some ch =>
        match generateRandomString n characters rest with
        | Option.none => Option.none
        | some (s, rest2) => some (ch :: s, rest2)

/-- The do/while retry loop of the worker's `generatePassword`: build a
candidate, return `null` (here `Option.none`) if the time budget has been
observed exhausted, otherwise return the candidate if it validates and
retry if not.  Each iteration consumes one entry of the `timeUp` stream of
elapsed-time observations; an exhausted stream is modelled as a timeout. -/
def generatePasswordLoop (options : PasswordGenerationOptions)
    (characters : List Nat) : List Nat → List Bool → Option (List Nat)
  | _, [] => Option.none
  | draws, t :: ts =>
    match generateRandomString options.passwordLength characters draws with
    | Option.none => Option.none
    | some (password, rest) =>
      if t then Option.none
      else if passwordIsValid password options then some password
      else generatePasswordLoop options characters rest ts

/-- Embedding of the worker's `generatePassword`: build the alphabet from
the enabled classes, then run the retry loop. -/
def generatePassword (options : PasswordGenerationOptions)
    (draws : List Nat) (timeUp : List Bool) : Option (List Nat) :=
  generatePasswordLoop options (passwordChars options) draws timeUp

/-- A JavaScript `Error` object, reduced to the two fields the coordinator
consults: `name` and `message`.  A plain `new Error(message)` has name
`"Error"`. -/
structure JsError where
  name : String
  message : String
deriving DecidableEq, Repr

/-- `PasswordGeneratorUtil.#createCancelError`. -/
def createCancelError : JsError :=
  { name := "CancelError", message := "Password generation cancelled" }

/-- `PasswordGeneratorUtil.#createTimeoutError`. -/
def createTimeoutError : JsError :=
  { name := "TimeoutError",
    message := "Password took too long to generate. Try adjusting some of the options to be less restrictive." }

/-- The `responseCode` field of a worker response message. -/
inductive ResponseCode where
  | OK
  | ERROR
  | TIMEOUT
deriving DecidableEq, Repr

/-- How `#handleWorkerMessage` settles the per-slice promise from a worker
response: `OK` resolves with the password, `ERROR` rejects with
`new Error(message)` (a generic error, name `"Error"`), `TIMEOUT` rejects
with the coordinator's `TimeoutError`. -/
def settleFromResponse (code : ResponseCode) (password : List Nat)
    (message : String) : Except JsError (List Nat) :=
  match code with
  | ResponseCode.OK => Except.ok password
  | ResponseCode.ERROR => Except.error { name := "Error", message := message }
  | ResponseCode.TIMEOUT => Except.error createTimeoutError

/-- Embedding of the `#generatePasswordOnWorker` slice loop.  Each element
of `slices` is one iteration of the `while` loop: the coordinator's
`#currentRequestId` observed at the slice boundary, paired with how that
slice's `#requestPassword` promise settles.  An exhausted slice list models
the `while` guard failing (time budget spent), which throws
`TimeoutError`; a stale request id throws `CancelError`; a slice rejection
other than `TimeoutError` is rethrown; a `TimeoutError` rejection moves to
the next slice. -/
def generatePasswordOnWorker (requestId : Nat) :
    List (Nat × Except JsError (List Nat)) → Except JsError (List Nat)
  | [] => Except.error createTimeoutError
  | (currentRequestId, settled) :: rest =>
    if requestId ≠ currentRequestId then Except.error createCancelError
    else
      match settled with
      | Except.ok password => Except.ok password
      | Except.error e =>
        if e.name ≠ "TimeoutError" then Except.error e
        else generatePasswordOnWorker requestId rest

/-- The `#workerPromiseHandlers` map: request ids to (worker to handler).
Workers and handlers are identified by numbers; an entry `some h` stands
for the stored `{ resolve, reject }` pair. -/
def HandlerMap : Type := Nat → Option (Nat → Option Nat)

/-- The empty `Map` the coordinator starts with. -/
def emptyHandlerMap : HandlerMap := fun _ => Option.none

/-- The registration performed by `#requestPassword`:
`handlersForRequest = map.get(requestId) ?? new Map()`, then
`handlersForRequest.set(worker, handlers)`, then
`map.set(requestId, handlersForRequest)`. -/
def registerHandler (m : HandlerMap) (requestId worker handler : Nat) :
    HandlerMap :=
  let handlersForRequest := (m requestId).getD (fun _ => Option.none)
  let updated := fun w => if w = worker then some handler else handlersForRequest w
  fun r => if r = requestId then some updated else m r

/-- The lookup performed by `#handleWorkerMessage`:
`map.get(event.data.messageData.requestId)?.get(worker)`. -/
def lookupHandler (m : HandlerMap) (requestId worker : Nat) : Option Nat :=
  (m requestId).bind (fun handlersForRequest => handlersForRequest worker)

/-- A handler map obtained by a sequence of `#requestPassword`
registrations `(requestId, worker, handler)`, applied left to right. -/
def buildHandlerMap (registrations : List (Nat × Nat × Nat)) : HandlerMap :=
  registrations.foldl (fun m reg => registerHandler m reg.1 reg.2.1 reg.2.2)
    emptyHandlerMap

/-- The action `#handleWorkerMessage` takes for a worker response: `none`
when no handlers are registered for the message's request id and worker
(the early return), otherwise the stored handler together with how it is
invoked. -/
def handleWorkerMessage (m : HandlerMap) (worker : Nat) (requestId : Nat)
    (code : ResponseCode) (password : List Nat) (message : String) :
    Option (Nat × Except JsError (List Nat)) :=
  match lookupHandler m requestId worker with
  | Option.none => Option.none
  | some handler => some (handler, settleFromResponse code password message)

/-- Pool size chosen by the `PasswordGeneratorUtil` constructor:
`navigator.hardwareConcurrency || 2` iterations of the worker-creating
loop.  `Option.none` models an absent `navigator.hardwareConcurrency`, and
`some 0` the falsy value `0`; both fall back to `2`. -/
def numWorkers : Option Nat → Nat
  | Option.none => 2
  | some n => if n = 0 then 2 else n

/-- Outcome of `Promise.any` over the per-worker promises: either some
promise fulfilled with a password, or all rejected, yielding an
`AggregateError` whose `errors` array lists the rejection reasons in the
order the promises were passed (worker pool order). -/
inductive AnyOutcome where
  | fulfilled (password : List Nat)
  | allRejected (errors : List JsError)

/-- The `try`/`catch` around `await Promise.any(promises)` in
`generatePassword`: a fulfilled race returns the password; an
`AggregateError` is replaced by `e.errors[0]`, the first worker's
rejection reason. -/
def coordinatorOutcome : AnyOutcome → Except JsError (List Nat)
  | AnyOutcome.fulfilled password => Except.ok password
  | AnyOutcome.allRejected errors =>
    Except.error ((errors.get? 0).getD { name := "TypeError", message := "" })

/-- The options of the 12-character scenario: uppercase, lowercase and
digits enabled, symbols disabled, no proportion constraints, unconstrained
case variance. -/
def optsScenario12 : PasswordGenerationOptions :=
  { passwordLength := 12, minDigitProportion := 0, minSymbolProportion := 0,
    maxCaseVariance := 1, useLowercase := true, useUppercase := true,
    useDigits := true, useSymbols := false, symbols := [] }

/-- The options of the balanced-case scenario: ten characters, letters
only, exact case balance required. -/
def optsScenario10 : PasswordGenerationOptions :=
  { passwordLength := 10, minDigitProportion := 0, minSymbolProportion := 0,
    maxCaseVariance := 0, useLowercase := true, useUppercase := true,
    useDigits := false, useSymbols := false, symbols := [] }

/-- A demonstration options value for exercising the validator: all three
constraints active. -/
def optsDemo : PasswordGenerationOptions :=
  { passwordLength := 4, minDigitProportion := 1/4, minSymbolProportion := 1/4,
    maxCaseVariance := 1, useLowercase := true, useUppercase := true,
    useDigits := true, useSymbols := true, symbols := [33] }

theorem bound_pos (min max : Nat) : 0 < bound min max := Nat.succ_pos _

theorem limit_pos (min max : Nat) (h2 : max ≤ 255) (h1 : min ≤ max) :
    0 < limit min max := by
  have hb : bound min max ≤ 256 := by
    unfold bound; omega
  have : 0 < (255 + 1) / bound min max :=
    Nat.div_pos hb (bound_pos min max)
  exact Nat.mul_pos this (bound_pos min max)

theorem limit_le_256 (min max : Nat) : limit min max ≤ 256 :=
  Nat.div_mul_le_self _ _

/-- On a stream that starts with rejected draws (each `≥ limit`) followed by
an accepted draw `b < limit`, `getRandomByteInRange` skips exactly the
rejected prefix and returns `(b % bound) + min`. -/
theorem getRandomByteInRange_accepts (min max : Nat) (pre : List Nat) (b : Nat)
    (rest : List Nat) (hpre : ∀ x ∈ pre, limit min max ≤ x) (hb : b < limit min max) :
    getRandomByteInRange min max (pre ++ b :: rest) =
      some (b % bound min max + min, rest) := by
  induction pre with
  | nil =>
    simp only [List.nil_append, getRandomByteInRange]
    have : ¬ ((b : ℤ) > (limit min max : ℤ) - 1) := by
      have := hb
      omega
    simp [this]
  | cons x xs ih =>
    have hx : limit min max ≤ x := hpre x (List.mem_cons_self x xs)
    have hcond : (x : ℤ) > (limit min max : ℤ) - 1 := by omega
    simp only [List.cons_append, getRandomByteInRange, hcond, if_pos]
    exact ih (fun y hy => hpre y (List.mem_cons_of_mem x hy))

/-- Every successful run of `getRandomByteInRange` decomposes the consumed
stream into a rejected prefix (all draws `≥ limit`) and one accepted draw
`b < limit`, and the value returned is `(b % bound) + min`, which lies in
`[min, max]`. -/
theorem getRandomByteInRange_characterization (min max : Nat)
    (h1 : min ≤ max) (draws : List Nat) (v : Nat) (rest : List Nat)
    (h : getRandomByteInRange min max draws = some (v, rest)) :
    min ≤ v ∧ v ≤ max ∧
      ∃ pre b, draws = pre ++ b :: rest ∧ (∀ x ∈ pre, limit min max ≤ x) ∧
        b < limit min max ∧ v = b % bound min max + min := by
  induction draws with
  | nil => simp [getRandomByteInRange] at h
  | cons x xs ih =>
    by_cases hcond : (x : ℤ) > (limit min max : ℤ) - 1
    · rw [getRandomByteInRange, if_pos hcond] at h
      obtain ⟨hv1, hv2, pre, b, hdec, hpre, hb, hval⟩ := ih h
      refine ⟨hv1, hv2, x :: pre, b, by simp [hdec], ?_, hb, hval⟩
      intro y hy
      rcases List.mem_cons.mp hy with hy | hy
      · subst hy; omega
      · exact hpre y hy
    · rw [getRandomByteInRange, if_neg hcond] at h
      have hx : x < limit min max := by omega
      have hpair : (x % bound min max + min, xs) = ((v, rest) : Nat × List Nat) :=
        Option.some.inj h
      have hv : x % bound min max + min = v := congrArg Prod.fst hpair
      have hrest : xs = rest := congrArg Prod.snd hpair
      refine ⟨?_, ?_, [], x, by simp [hrest], by simp, hx, hv.symm⟩
      · omega
      · have hmod : x % bound min max < bound min max :=
          Nat.mod_lt _ (bound_pos min max)
        have : bound min max = max - min + 1 := rfl
        omega

/-- Counting lemma for rejection sampling: among the naturals below `k * n`,
exactly `k` leave remainder `r` modulo `n` (for `r < n`). -/
theorem card_filter_mod (n r k : Nat) (hn : 0 < n) (hr : r < n) :
    ((Finset.range (k * n)).filter (fun b => b % n = r)).card = k := by
  have key :
      ((Finset.range (k * n)).filter (fun b => b % n = r)).card =
        (Finset.range k).card := by
    apply Finset.card_nbij' (i := fun b => b / n) (j := fun i => i * n + r)
    · intro a ha
      simp only [Finset.mem_filter, Finset.mem_range] at ha
      simp only [Finset.mem_range]
      exact Nat.div_lt_of_lt_mul (Nat.lt_of_lt_of_eq ha.1 (Nat.mul_comm k n))
    · intro a ha
      simp only [Finset.mem_range] at ha
      simp only [Finset.mem_filter, Finset.mem_range]
      refine ⟨?_, ?_⟩
      · calc a * n + r < a * n + n := by omega
          _ = (a + 1) * n := by ring
          _ ≤ k * n := Nat.mul_le_mul_right n (by omega)
      · rw [Nat.mul_comm, Nat.mul_add_mod, Nat.mod_eq_of_lt hr]
    · intro a ha
      simp only [Finset.mem_filter, Finset.mem_range] at ha
      conv_rhs => rw [← Nat.div_add_mod a n]
      rw [ha.2, Nat.mul_comm]
    · intro a ha
      simp only [Finset.mem_range] at ha
      rw [Nat.mul_comm, Nat.mul_add_div hn, Nat.div_eq_of_lt hr]
      omega
  simpa using key

/-- Preimage count: for every target value `v ∈ [min, max]`, the number of
bytes accepted by the rejection sampler that map to `v` is `⌊256 / bound⌋`. -/
theorem getRandomByteInRange_preimage_count (min max : Nat)
    (h1 : min ≤ max) (h2 : max ≤ 255) (v : Nat) (hv1 : min ≤ v) (hv2 : v ≤ max) :
    ((Finset.range 256).filter
        (fun b => b < limit min max ∧ b % bound min max + min = v)).card =
      256 / bound min max := by
  have hb : 0 < bound min max := bound_pos min max
  have hlim : limit min max ≤ 256 := limit_le_256 min max
  have hfilter :
      (Finset.range 256).filter
          (fun b => b < limit min max ∧ b % bound min max + min = v) =
        (Finset.range (256 / bound min max * bound min max)).filter
          (fun b => b % bound min max = v - min) := by
    ext b
    simp only [Finset.mem_filter, Finset.mem_range]
    have hlim' : limit min max = 256 / bound min max * bound min max := rfl
    constructor
    · rintro ⟨-, hblim, hmod⟩
      exact ⟨by omega, by omega⟩
    · rintro ⟨hblim, hmod⟩
      have : b < limit min max := by omega
      exact ⟨by omega, this, by omega⟩
  rw [hfilter]
  apply card_filter_mod _ _ _ hb
  unfold bound
  omega

theorem countStep_apply (m : CharClass → Option Nat) (c : Nat) (cls : CharClass) :
    (countStep m c cls).getD 0 =
      (m cls).getD 0 + (if classifyCharacter c = cls then 1 else 0) := by
  unfold countStep mapSet
  by_cases hcls : cls = classifyCharacter c
  · subst hcls
    cases hm : m (classifyCharacter c) <;> simp [hm]
  · have hcls' : ¬ classifyCharacter c = cls := fun h => hcls h.symm
    cases hm : m (classifyCharacter c) <;> simp [hm, hcls, hcls']

theorem foldl_countStep_getD (password : List Nat)
    (m : CharClass → Option Nat) (cls : CharClass) :
    ((password.foldl countStep m) cls).getD 0 =
      (m cls).getD 0 + classCount cls password := by
  induction password generalizing m with
  | nil => simp [classCount]
  | cons c cs ih =>
    rw [List.foldl_cons, ih]
    rw [countStep_apply]
    unfold classCount
    rw [List.countP_cons]
    by_cases h : classifyCharacter c = cls <;> simp [h] <;> omega

/-- The `Map`-based tally of `passwordIsValid` agrees with the direct
per-class count. -/
theorem characterCountMap_getD (password : List Nat) (cls : CharClass) :
    ((characterCountMap password) cls).getD 0 = classCount cls password := by
  unfold characterCountMap
  rw [foldl_countStep_getD]
  simp

theorem jsDivGE_of_ne_zero (a len : Nat) (p : ℚ) (h : len ≠ 0) :
    jsDivGE a len p = decide (p ≤ (a : ℚ) / (len : ℚ)) := by
  simp [jsDivGE, h]

theorem jsCaseOK_of_pos (lower letters : Nat) (v : ℚ) (h : 0 < letters) :
    jsCaseOK lower letters v =
      decide (2 * |(lower : ℚ) / (letters : ℚ) - 1/2| ≤ v) := by
  simp [jsCaseOK, Nat.pos_iff_ne_zero.mp h]

/-- For a non-empty candidate the `NaN`-aware comparisons coincide with the
total-division reading: `passwordIsValid` and `passwordIsValidRealDiv`
agree. -/
theorem passwordIsValid_eq_realDiv (password : List Nat)
    (options : PasswordGenerationOptions) (h : password ≠ []) :
    passwordIsValid password options = passwordIsValidRealDiv password options := by
  have hlen : password.length ≠ 0 := by
    simpa [List.length_eq_zero] using h
  unfold passwordIsValid passwordIsValidRealDiv
  simp only [characterCountMap_getD]
  rw [jsDivGE_of_ne_zero _ _ _ hlen, jsDivGE_of_ne_zero _ _ _ hlen]
  rcases Nat.eq_zero_or_pos
      (classCount CharClass.lowercase password + classCount CharClass.uppercase password)
    with hzero | hpos
  · rw [hzero]
    simp [jsCaseOK]
  · rw [jsCaseOK_of_pos _ _ _ hpos]

/-- The three guarded conditions of the validator, in propositional form,
for a non-empty candidate: each condition is an implication from its guard
(vacuous when the guard fails). -/
theorem passwordIsValid_iff (password : List Nat)
    (options : PasswordGenerationOptions) (h : password ≠ []) :
    passwordIsValid password options = true ↔
      ((options.useDigits = true →
          options.minDigitProportion ≤
            (classCount CharClass.digit password : ℚ) / (password.length : ℚ)) ∧
        (options.useSymbols = true ∧ options.symbols ≠ [] →
          options.minSymbolProportion ≤
            (classCount CharClass.symbol password : ℚ) / (password.length : ℚ)) ∧
        (0 < classCount CharClass.lowercase password +
              classCount CharClass.uppercase password ∧
            options.useUppercase = true ∧ options.useLowercase = true →
          2 * |(classCount CharClass.lowercase password : ℚ) /
                ((classCount CharClass.lowercase password +
                  classCount CharClass.uppercase password : Nat) : ℚ) - 1/2|
            ≤ options.maxCaseVariance)) := by
  rw [passwordIsValid_eq_realDiv password options h]
  unfold passwordIsValidRealDiv
  simp only [Bool.and_eq_true, Bool.or_eq_true, Bool.not_eq_true',
    Bool.and_eq_false_iff, decide_eq_true_iff, decide_eq_false_iff_not,
    List.length_pos, not_lt, Nat.le_zero, and_assoc]
  constructor
  · rintro ⟨h1, h2, h3⟩
    refine ⟨?_, ?_, ?_⟩
    · intro hd
      rcases h1 with h1 | h1
      · rw [hd] at h1; cases h1
      · exact h1
    · rintro ⟨hs, hsym⟩
      rcases h2 with (h2 | h2) | h2
      · rw [hs] at h2; cases h2
      · exact absurd hsym h2
      · exact h2
    · rintro ⟨hpos, hu, hl⟩
      rcases h3 with ((h3 | h3) | h3) | h3
      · omega
      · rw [hu] at h3; cases h3
      · rw [hl] at h3; cases h3
      · exact h3
  · rintro ⟨h1, h2, h3⟩
    refine ⟨?_, ?_, ?_⟩
    · cases hd : options.useDigits
      · exact Or.inl rfl
      · exact Or.inr (h1 hd)
    · cases hs : options.useSymbols
      · exact Or.inl (Or.inl rfl)
      · cases hsym : options.symbols with
        | nil => exact Or.inl (Or.inr (by simp [hsym]))
        | cons a as => exact Or.inr (h2 ⟨hs, by simp [hsym]⟩)
    · rcases Nat.eq_zero_or_pos
          (classCount CharClass.lowercase password +
            classCount CharClass.uppercase password) with hzero | hpos
      · exact Or.inl (Or.inl (Or.inl (by omega)))
      · cases hu : options.useUppercase
        · exact Or.inl (Or.inl (Or.inr rfl))
        · cases hl : options.useLowercase
          · exact Or.inl (Or.inr rfl)
          · exact Or.inr (h3 ⟨hpos, hu, hl⟩)

theorem generateRandomString_sound (n : Nat) (characters : List Nat) :
    ∀ (draws : List Nat) (s : List Nat) (rest : List Nat),
      generateRandomString n characters draws = some (s, rest) →
      s.length = n ∧ ∀ c ∈ s, c ∈ characters := by
  induction n with
  | zero =>
    intro draws s rest h
    simp only [generateRandomString] at h
    have hpair : (([], draws) : List Nat × List Nat) = (s, rest) := Option.some.inj h
    have hs : s = [] := (congrArg Prod.fst hpair).symm
    subst hs
    simp
  | succ n ih =>
    intro draws s rest h
    simp only [generateRandomString] at h
    rcases hdraw : getRandomByteInRange 0 (characters.length - 1) draws with
      _ | ⟨idx, rest1⟩
    · rw [hdraw] at h; cases h
    rw [hdraw] at h
    dsimp only at h
    rcases hget : characters.get? idx with _ | ch
    · rw [hget] at h; cases h
    rw [hget] at h
    dsimp only at h
    rcases hrec : generateRandomString n characters rest1 with _ | ⟨s2, rest2⟩
    · rw [hrec] at h; cases h
    rw [hrec] at h
    dsimp only at h
    have hpair : ((ch :: s2, rest2) : List Nat × List Nat) = (s, rest) :=
      Option.some.inj h
    have hs : s = ch :: s2 := (congrArg Prod.fst hpair).symm
    subst hs
    obtain ⟨hlen, hmem⟩ := ih rest1 s2 rest2 hrec
    refine ⟨by simp [hlen], ?_⟩
    intro c hc
    rcases List.mem_cons.mp hc with hc | hc
    · subst hc
      exact List.get?_mem hget
    · exact hmem c hc

theorem generatePasswordLoop_sound (options : PasswordGenerationOptions)
    (characters : List Nat) :
    ∀ (draws : List Nat) (timeUp : List Bool) (pw : List Nat),
      generatePasswordLoop options characters draws timeUp = some pw →
      pw.length = options.passwordLength ∧ (∀ c ∈ pw, c ∈ characters) ∧
        passwordIsValid pw options = true := by
  intro draws timeUp
  induction timeUp generalizing draws with
  | nil => intro pw h; simp [generatePasswordLoop] at h
  | cons t ts ih =>
    intro pw h
    simp only [generatePasswordLoop] at h
    rcases hgen : generateRandomString options.passwordLength characters draws with
      _ | ⟨cand, rest⟩
    · rw [hgen] at h; cases h
    rw [hgen] at h
    rcases t with _ | _
    · simp only [if_neg Bool.false_ne_true, Bool.false_eq_true, if_false] at h
      by_cases hvalid : passwordIsValid cand options = true
      · rw [if_pos hvalid] at h
        have hpw : cand = pw := Option.some.inj h
        subst hpw
        obtain ⟨hlen, hmem⟩ :=
          generateRandomString_sound options.passwordLength characters draws
            cand rest hgen
        exact ⟨hlen, hmem, hvalid⟩
      · rw [if_neg hvalid] at h
        exact ih rest pw h
    · simp at h

/-- Soundness of the worker's `generatePassword`: every returned password
has exactly the requested length, uses only the enabled alphabet, and
validates against the options. -/
theorem generatePassword_sound (options : PasswordGenerationOptions)
    (draws : List Nat) (timeUp : List Bool) (pw : List Nat)
    (h : generatePassword options draws timeUp = some pw) :
    pw.length = options.passwordLength ∧ (∀ c ∈ pw, c ∈ passwordChars options) ∧
      passwordIsValid pw options = true :=
  generatePasswordLoop_sound options (passwordChars options) draws timeUp pw h

theorem lookupHandler_register (m : HandlerMap) (requestId worker handler : Nat)
    (r w : Nat) :
    lookupHandler (registerHandler m requestId worker handler) r w =
      if r = requestId then
        (if w = worker then some handler else lookupHandler m r w)
      else lookupHandler m r w := by
  unfold lookupHandler registerHandler
  by_cases hr : r = requestId
  · subst hr
    by_cases hw : w = worker
    · simp [hw]
    · simp only [if_pos rfl, if_neg hw, Option.bind_some]
      cases hm : m r <;> simp [hm, hw]
  · simp [hr]

/-- Any handler found in a map built from a list of registrations was
registered, under exactly the request id and worker it is looked up by. -/
theorem lookupHandler_mem (registrations : List (Nat × Nat × Nat))
    (r w h : Nat) :
    lookupHandler (buildHandlerMap registrations) r w = some h →
      (r, w, h) ∈ registrations := by
  suffices key : ∀ (m : HandlerMap),
      lookupHandler
          (registrations.foldl
            (fun m reg => registerHandler m reg.1 reg.2.1 reg.2.2) m) r w =
        some h →
      (r, w, h) ∈ registrations ∨ lookupHandler m r w = some h by
    intro hl
    rcases key emptyHandlerMap hl with hmem | habs
    · exact hmem
    · simp [lookupHandler, emptyHandlerMap] at habs
  induction registrations with
  | nil => intro m hl; exact Or.inr hl
  | cons reg regs ih =>
    intro m hl
    rw [List.foldl_cons] at hl
    rcases ih _ hl with hmem | hrest
    · exact Or.inl (List.mem_cons_of_mem reg hmem)
    · rw [lookupHandler_register] at hrest
      by_cases hr : r = reg.1
      · rw [if_pos hr] at hrest
        by_cases hw : w = reg.2.1
        · rw [if_pos hw] at hrest
          have hh : h = reg.2.2 := (Option.some.inj hrest).symm
          left
          rw [hr, hw, hh]
          exact List.mem_cons_self reg regs
        · rw [if_neg hw] at hrest
          exact Or.inr hrest
      · rw [if_neg hr] at hrest
        exact Or.inr hrest

/-- The stale-request check of the slice loop: while the loop only sees
same-request slices that rejected with `TimeoutError`, it keeps retrying,
and at the first boundary where the coordinator's current id differs it
throws `CancelError` — whatever the pending slice would have produced. -/
theorem generatePasswordOnWorker_stale (requestId : Nat)
    (pre : List (Nat × Except JsError (List Nat)))
    (cur : Nat) (res : Except JsError (List Nat))
    (rest : List (Nat × Except JsError (List Nat)))
    (hpre : ∀ s ∈ pre, s.1 = requestId ∧
      ∃ e, s.2 = Except.error e ∧ e.name = "TimeoutError")
    (hne : requestId ≠ cur) :
    generatePasswordOnWorker requestId (pre ++ (cur, res) :: rest) =
      Except.error createCancelError := by
  induction pre with
  | nil =>
    rw [List.nil_append]
    rcases res with p | e <;> rw [generatePasswordOnWorker, if_pos hne]
  | cons s ss ih =>
    obtain ⟨s1, s2⟩ := s
    obtain ⟨hid, e, herr, hname⟩ := hpre (s1, s2) (List.mem_cons_self _ _)
    simp only at hid herr
    subst hid
    subst herr
    rw [List.cons_append, generatePasswordOnWorker,
      if_neg (not_not_intro rfl)]
    rw [if_neg (not_not_intro hname)]
    exact ih (fun t ht => hpre t (List.mem_cons_of_mem _ ht))

/-- A slice rejection that is not a `TimeoutError` is rethrown by the slice
loop when the request is still current. -/
theorem generatePasswordOnWorker_error (requestId : Nat) (e : JsError)
    (rest : List (Nat × Except JsError (List Nat)))
    (hname : e.name ≠ "TimeoutError") :
    generatePasswordOnWorker requestId ((requestId, Except.error e) :: rest) =
      Except.error e := by
  rw [generatePasswordOnWorker]
  simp [hname]

/-- `passwordIsValid` on the empty candidate is `false` whenever the digit
constraint is enabled, or the symbol constraint is enabled with a non-empty
symbol set — even with the minimum proportions at `0` — because `0 / 0`
compares as `NaN`. -/
theorem passwordIsValid_nil (options : PasswordGenerationOptions)
    (h : options.useDigits = true ∨
      (options.useSymbols = true ∧ options.symbols ≠ [])) :
    passwordIsValid [] options = false := by
  unfold passwordIsValid
  have hmap : characterCountMap [] = fun _ => Option.none := rfl
  rcases h with hd | ⟨hs, hsym⟩
  · simp [hmap, hd, jsDivGE]
  · have hlen : 0 < options.symbols.length := List.length_pos.mpr hsym
    simp [hmap, hs, hlen, jsDivGE]

/-- If a valid password was required to contain digits, the candidate is
non-empty and meets the digit-proportion bound with exact arithmetic. -/
theorem passwordIsValid_digit_proportion (password : List Nat)
    (options : PasswordGenerationOptions)
    (hv : passwordIsValid password options = true)
    (hd : options.useDigits = true) :
    options.minDigitProportion ≤
      (classCount CharClass.digit password : ℚ) / (password.length : ℚ) := by
  by_cases hpw : password = []
  · subst hpw
    rw [passwordIsValid_nil options (Or.inl hd)] at hv
    cases hv
  · exact ((passwordIsValid_iff password options hpw).mp hv).1 hd

/-- Counting letters: when every character of the candidate classifies as
uppercase or lowercase, the two letter counts exhaust the length. -/
theorem letters_count_eq_length (l : List Nat)
    (h : ∀ c ∈ l, classifyCharacter c = CharClass.uppercase ∨
      classifyCharacter c = CharClass.lowercase) :
    classCount CharClass.lowercase l + classCount CharClass.uppercase l =
      l.length := by
  induction l with
  | nil => simp [classCount]
  | cons c cs ih =>
    have hc := h c (List.mem_cons_self c cs)
    have ihc := ih (fun x hx => h x (List.mem_cons_of_mem c hx))
    unfold classCount at ihc ⊢
    rw [List.countP_cons, List.countP_cons, List.length_cons]
    rcases hc with hc | hc <;> simp [hc] <;> omega

/-- Exact case balance: `2 * |lc / n - 1/2| ≤ 0` forces `2 * lc = n`. -/
theorem case_variance_zero (lc n : Nat) (hn : 0 < n)
    (h : 2 * |(lc : ℚ) / (n : ℚ) - 1/2| ≤ 0) : 2 * lc = n := by
  have habs : |(lc : ℚ) / (n : ℚ) - 1/2| = 0 := by
    have := abs_nonneg ((lc : ℚ) / (n : ℚ) - 1/2)
    linarith
  have hdiff : (lc : ℚ) / (n : ℚ) - 1/2 = 0 := abs_eq_zero.mp habs
  have hnq : (n : ℚ) ≠ 0 := Nat.cast_ne_zero.mpr (Nat.pos_iff_ne_zero.mp hn)
  have hq : 2 * (lc : ℚ) = (n : ℚ) := by
    field_simp at hdiff
    linarith
  exact_mod_cast hq

theorem scenario12_chars (c : Nat) (hc : c ∈ passwordChars optsScenario12) :
    (48 ≤ c ∧ c ≤ 57) ∨ (65 ≤ c ∧ c ≤ 90) ∨ (97 ≤ c ∧ c ≤ 122) := by
  revert c
  decide

theorem scenario10_chars (c : Nat) (hc : c ∈ passwordChars optsScenario10) :
    classifyCharacter c = CharClass.uppercase ∨
      classifyCharacter c = CharClass.lowercase := by
  revert c
  decide

/-- Any 10-character candidate over the letters-only alphabet that
validates under the balanced-case options has exactly five lowercase and
five uppercase letters. -/
theorem scenario10_balanced (pw : List Nat) (hlen : pw.length = 10)
    (hmem : ∀ c ∈ pw, c ∈ passwordChars optsScenario10)
    (hvalid : passwordIsValid pw optsScenario10 = true) :
    classCount CharClass.uppercase pw = 5 ∧
      classCount CharClass.lowercase pw = 5 := by
  have hclass : ∀ c ∈ pw, classifyCharacter c = CharClass.uppercase ∨
      classifyCharacter c = CharClass.lowercase :=
    fun c hc => scenario10_chars c (hmem c hc)
  have hsum : classCount CharClass.lowercase pw +
      classCount CharClass.uppercase pw = 10 := by
    rw [letters_count_eq_length pw hclass, hlen]
  have hne : pw ≠ [] := by
    intro hcontra
    rw [hcontra] at hlen
    simp at hlen
  have h3 := ((passwordIsValid_iff pw optsScenario10 hne).mp hvalid).2.2
    ⟨by omega, rfl, rfl⟩
  have hvar : 2 * |(classCount CharClass.lowercase pw : ℚ) /
      ((classCount CharClass.lowercase pw +
        classCount CharClass.uppercase pw : Nat) : ℚ) - 1/2| ≤ 0 := h3
  have hbal := case_variance_zero (classCount CharClass.lowercase pw)
    (classCount CharClass.lowercase pw + classCount CharClass.uppercase pw)
    (by omega) hvar
  omega

/-- C1.  `getRandomByteInRange` is rejection sampling with
`bound = max - min + 1` and `limit = ⌊256 / bound⌋ * bound`: draws `≥ limit`
are discarded, the first draw `< limit` is accepted and produces
`(draw % bound) + min`; every returned value lies in `[min, max]` and is
produced by an accepted byte `< limit`, and every value of `[min, max]` has
exactly `⌊256 / bound⌋` byte preimages among the accepted bytes. -/
theorem claim_C1_rejection_sampling (min max : Nat)
    (h1 : min ≤ max) (h2 : max ≤ 255) :
    (∀ (pre : List Nat) (b : Nat) (rest : List Nat),
        (∀ x ∈ pre, limit min max ≤ x) → b < limit min max →
        getRandomByteInRange min max (pre ++ b :: rest) =
          some (b % bound min max + min, rest)) ∧
      (∀ (draws : List Nat) (v : Nat) (rest : List Nat),
        getRandomByteInRange min max draws = some (v, rest) →
        min ≤ v ∧ v ≤ max ∧
          ∃ pre b, draws = pre ++ b :: rest ∧ (∀ x ∈ pre, limit min max ≤ x) ∧
            b < limit min max ∧ v = b % bound min max + min) ∧
      (∀ v : Nat, min ≤ v → v ≤ max →
        ((Finset.range 256).filter
            (fun b => b < limit min max ∧ b % bound min max + min = v)).card =
          256 / bound min max) :=
  ⟨fun pre b rest hpre hb =>
      getRandomByteInRange_accepts min max pre b rest hpre hb,
    fun draws v rest h =>
      getRandomByteInRange_characterization min max h1 draws v rest h,
    fun v hv1 hv2 =>
      getRandomByteInRange_preimage_count min max h1 h2 v hv1 hv2⟩

theorem claim_C1_witness :
    getRandomByteInRange 10 14 [255, 3, 9] = some (13, [9]) ∧
      ((Finset.range 256).filter
          (fun b => b < limit 10 14 ∧ b % bound 10 14 + 10 = 12)).card = 51 := by
  have h := claim_C1_rejection_sampling 10 14 (by decide) (by decide)
  constructor
  · have hacc := h.1 [255] 3 [9] (by decide) (by decide)
    simpa [bound] using hacc
  · have hcount := h.2.2 12 (by decide) (by decide)
    have hdiv : 256 / bound 10 14 = 51 := by decide
    rw [hdiv] at hcount
    exact hcount

/-- C2.  `passwordIsValid` holds exactly when the three guarded class
conditions hold: the digit proportion bound under `useDigits`, the symbol
proportion bound under `useSymbols` with a non-empty symbol set, and the
case-variance bound when letters are present and both cases are enabled —
each condition vacuous when its guard fails.  Stated for non-empty
candidates, where the proportions are well-defined quotients (the empty
candidate evaluates through `NaN`; see the C10 theorem). -/
theorem claim_C2_validator_conditions (password : List Nat)
    (options : PasswordGenerationOptions) (h : password ≠ []) :
    passwordIsValid password options = true ↔
      ((options.useDigits = true →
          options.minDigitProportion ≤
            (classCount CharClass.digit password : ℚ) / (password.length : ℚ)) ∧
        (options.useSymbols = true ∧ options.symbols ≠ [] →
          options.minSymbolProportion ≤
            (classCount CharClass.symbol password : ℚ) / (password.length : ℚ)) ∧
        (0 < classCount CharClass.lowercase password +
              classCount CharClass.uppercase password ∧
            options.useUppercase = true ∧ options.useLowercase = true →
          2 * |(classCount CharClass.lowercase password : ℚ) /
                ((classCount CharClass.lowercase password +
                  classCount CharClass.uppercase password : Nat) : ℚ) - 1/2|
            ≤ options.maxCaseVariance)) :=
  passwordIsValid_iff password options h

theorem optsDemo_rhs :
    (optsDemo.useDigits = true →
        optsDemo.minDigitProportion ≤
          (classCount CharClass.digit [97, 65, 48, 33] : ℚ) /
            (([97, 65, 48, 33] : List Nat).length : ℚ)) ∧
      (optsDemo.useSymbols = true ∧ optsDemo.symbols ≠ [] →
        optsDemo.minSymbolProportion ≤
          (classCount CharClass.symbol [97, 65, 48, 33] : ℚ) /
            (([97, 65, 48, 33] : List Nat).length : ℚ)) ∧
      (0 < classCount CharClass.lowercase [97, 65, 48, 33] +
            classCount CharClass.uppercase [97, 65, 48, 33] ∧
          optsDemo.useUppercase = true ∧ optsDemo.useLowercase = true →
        2 * |(classCount CharClass.lowercase [97, 65, 48, 33] : ℚ) /
              ((classCount CharClass.lowercase [97, 65, 48, 33] +
                classCount CharClass.uppercase [97, 65, 48, 33] : Nat) : ℚ) -
              1/2| ≤ optsDemo.maxCaseVariance) := by
  have hd : classCount CharClass.digit [97, 65, 48, 33] = 1 := by decide
  have hs : classCount CharClass.symbol [97, 65, 48, 33] = 1 := by decide
  have hl : classCount CharClass.lowercase [97, 65, 48, 33] = 1 := by decide
  have hu : classCount CharClass.uppercase [97, 65, 48, 33] = 1 := by decide
  refine ⟨fun _ => ?_, fun _ => ?_, fun _ => ?_⟩
  · rw [hd]
    show (1 : ℚ)/4 ≤ (1 : ℚ) / 4
    norm_num
  · rw [hs]
    show (1 : ℚ)/4 ≤ (1 : ℚ) / 4
    norm_num
  · rw [hl, hu]
    show 2 * |(1 : ℚ) / ((2 : Nat) : ℚ) - 1/2| ≤ 1
    norm_num

theorem claim_C2_witness :
    passwordIsValid [97, 65, 48, 33] optsDemo = true :=
  (claim_C2_validator_conditions [97, 65, 48, 33] optsDemo
    (by decide)).mpr optsDemo_rhs

/-- C7.  `classifyCharacter` is total and deterministic, partitioning the
character codes exactly as specified: `48–57` digit, `65–90` uppercase,
`97–122` lowercase, the four punctuation ranges symbol, everything else —
including the control codes `0–31` and `127` — none. -/
theorem claim_C7_classifier_partition (c : Nat) :
    (classifyCharacter c = CharClass.digit ↔ 48 ≤ c ∧ c ≤ 57) ∧
      (classifyCharacter c = CharClass.uppercase ↔ 65 ≤ c ∧ c ≤ 90) ∧
      (classifyCharacter c = CharClass.lowercase ↔ 97 ≤ c ∧ c ≤ 122) ∧
      (classifyCharacter c = CharClass.symbol ↔
        (32 ≤ c ∧ c ≤ 47) ∨ (58 ≤ c ∧ c ≤ 64) ∨ (91 ≤ c ∧ c ≤ 96) ∨
          (123 ≤ c ∧ c ≤ 126)) ∧
      (classifyCharacter c = CharClass.none ↔
        ¬((48 ≤ c ∧ c ≤ 57) ∨ (65 ≤ c ∧ c ≤ 90) ∨ (97 ≤ c ∧ c ≤ 122) ∨
          (32 ≤ c ∧ c ≤ 47) ∨ (58 ≤ c ∧ c ≤ 64) ∨ (91 ≤ c ∧ c ≤ 96) ∨
          (123 ≤ c ∧ c ≤ 126))) := by
  unfold classifyCharacter
  split_ifs with h1 h2 h3 h4 <;>
    refine ⟨?_, ?_, ?_, ?_, ?_⟩ <;> simp <;> omega

/-- C10.  For a non-empty candidate every division the validator evaluates
has a positive denominator, so the `NaN`-aware comparisons coincide with
total division; for the empty candidate, an enabled digit constraint — or
an enabled symbol constraint with a non-empty symbol set — makes the
validator reject even when the required minimum proportion is `0`, because
`0 / 0` compares as `NaN`. -/
theorem claim_C10_division_safety (password : List Nat)
    (options : PasswordGenerationOptions) :
    (password ≠ [] →
        passwordIsValid password options =
          passwordIsValidRealDiv password options) ∧
      (options.useDigits = true ∨
          (options.useSymbols = true ∧ options.symbols ≠ []) →
        passwordIsValid [] options = false) :=
  ⟨fun h => passwordIsValid_eq_realDiv password options h,
    fun h => passwordIsValid_nil options h⟩

theorem claim_C10_witness :
    passwordIsValid [97] optsDemo = passwordIsValidRealDiv [97] optsDemo ∧
      passwordIsValid [] optsDemo = false :=
  ⟨(claim_C10_division_safety [97] optsDemo).1 (by decide),
    (claim_C10_division_safety [] optsDemo).2 (Or.inl rfl)⟩

/-- C3.  Every password the worker's `generatePassword` returns (the
non-`null` result relayed with response code `OK`) has exactly the
requested length, uses only characters of the alphabet concatenated from
the enabled classes in the fixed order uppercase, lowercase, digits,
symbols, and validates against the options — in particular, with
`useDigits` the digit-proportion bound holds; and under the 12-character
scenario options the result is 12 characters over `[A-Za-z0-9]` only. -/
theorem claim_C3_generated_password_sound :
    (∀ (options : PasswordGenerationOptions) (draws : List Nat)
        (timeUp : List Bool) (pw : List Nat),
        generatePassword options draws timeUp = some pw →
        pw.length = options.passwordLength ∧
          (∀ c ∈ pw, c ∈ passwordChars options) ∧
          passwordIsValid pw options = true ∧
          (options.useDigits = true →
            options.minDigitProportion ≤
              (classCount CharClass.digit pw : ℚ) / (pw.length : ℚ))) ∧
      (∀ (draws : List Nat) (timeUp : List Bool) (pw : List Nat),
        generatePassword optsScenario12 draws timeUp = some pw →
        pw.length = 12 ∧
          ∀ c ∈ pw, (48 ≤ c ∧ c ≤ 57) ∨ (65 ≤ c ∧ c ≤ 90) ∨
            (97 ≤ c ∧ c ≤ 122)) := by
  constructor
  · intro options draws timeUp pw h
    obtain ⟨hlen, hmem, hvalid⟩ := generatePassword_sound options draws timeUp pw h
    exact ⟨hlen, hmem, hvalid,
      fun hd => passwordIsValid_digit_proportion pw options hvalid hd⟩
  · intro draws timeUp pw h
    obtain ⟨hlen, hmem, _⟩ :=
      generatePassword_sound optsScenario12 draws timeUp pw h
    exact ⟨hlen, fun c hc => scenario12_chars c (hmem c hc)⟩

theorem scenario12_demo_valid :
    passwordIsValid [65, 65, 65, 65, 65, 65, 65, 65, 65, 65, 65, 65]
      optsScenario12 = true := by
  apply (passwordIsValid_iff _ _ (by decide)).mpr
  have hu : classCount CharClass.uppercase
      [65, 65, 65, 65, 65, 65, 65, 65, 65, 65, 65, 65] = 12 := by decide
  have hl : classCount CharClass.lowercase
      [65, 65, 65, 65, 65, 65, 65, 65, 65, 65, 65, 65] = 0 := by decide
  have hd : classCount CharClass.digit
      [65, 65, 65, 65, 65, 65, 65, 65, 65, 65, 65, 65] = 0 := by decide
  refine ⟨fun _ => ?_, fun hs => ?_, fun _ => ?_⟩
  · rw [hd]
    norm_num [optsScenario12]
  · exact absurd hs.1 (by decide)
  · rw [hl, hu]
    norm_num [optsScenario12]
    rw [abs_of_nonneg (by norm_num : (0:ℚ) ≤ 1/2)]
    norm_num

theorem scenario12_run :
    generatePassword optsScenario12 [0, 0, 0, 0, 0, 0, 0, 0, 0, 0, 0, 0]
      [false] = some [65, 65, 65, 65, 65, 65, 65, 65, 65, 65, 65, 65] := by
  have hgen : generateRandomString optsScenario12.passwordLength
      (passwordChars optsScenario12) [0, 0, 0, 0, 0, 0, 0, 0, 0, 0, 0, 0] =
        some ([65, 65, 65, 65, 65, 65, 65, 65, 65, 65, 65, 65], []) := by decide
  simp [generatePassword, generatePasswordLoop, hgen, scenario12_demo_valid]

theorem claim_C3_witness :
    generatePassword optsScenario12 [0, 0, 0, 0, 0, 0, 0, 0, 0, 0, 0, 0]
        [false] = some [65, 65, 65, 65, 65, 65, 65, 65, 65, 65, 65, 65] ∧
      ([65, 65, 65, 65, 65, 65, 65, 65, 65, 65, 65, 65] : List Nat).length = 12 :=
  ⟨scenario12_run,
    (claim_C3_generated_password_sound.2 _ _ _ scenario12_run).1⟩

/-- C8.  Under the balanced-case scenario options, every full-length
candidate over the generation alphabet (letters only) that the validator
accepts — and hence every password this configuration can return — has
exactly five uppercase and five lowercase letters, so the letter counts
differ by at most one. -/
theorem claim_C8_case_balance :
    (∀ pw : List Nat, pw.length = 10 →
        (∀ c ∈ pw, c ∈ passwordChars optsScenario10) →
        passwordIsValid pw optsScenario10 = true →
        classCount CharClass.uppercase pw = 5 ∧
          classCount CharClass.lowercase pw = 5 ∧
          classCount CharClass.lowercase pw +
              classCount CharClass.uppercase pw = 10 ∧
          ((classCount CharClass.uppercase pw : ℤ) -
              (classCount CharClass.lowercase pw : ℤ)).natAbs ≤ 1) ∧
      (∀ (draws : List Nat) (timeUp : List Bool) (pw : List Nat),
        generatePassword optsScenario10 draws timeUp = some pw →
        classCount CharClass.uppercase pw = 5 ∧
          classCount CharClass.lowercase pw = 5) := by
  have main : ∀ pw : List Nat, pw.length = 10 →
      (∀ c ∈ pw, c ∈ passwordChars optsScenario10) →
      passwordIsValid pw optsScenario10 = true →
      classCount CharClass.uppercase pw = 5 ∧
        classCount CharClass.lowercase pw = 5 := by
    intro pw hlen hmem hvalid
    exact scenario10_balanced pw hlen hmem hvalid
  constructor
  · intro pw hlen hmem hvalid
    obtain ⟨hu, hl⟩ := main pw hlen hmem hvalid
    exact ⟨hu, hl, by omega, by omega⟩
  · intro draws timeUp pw h
    obtain ⟨hlen, hmem, hvalid⟩ :=
      generatePassword_sound optsScenario10 draws timeUp pw h
    exact main pw hlen hmem hvalid

theorem scenario10_demo_valid :
    passwordIsValid [65, 65, 65, 65, 65, 97, 97, 97, 97, 97]
      optsScenario10 = true := by
  apply (passwordIsValid_iff _ _ (by decide)).mpr
  have hl : classCount CharClass.lowercase
      [65, 65, 65, 65, 65, 97, 97, 97, 97, 97] = 5 := by decide
  have hu : classCount CharClass.uppercase
      [65, 65, 65, 65, 65, 97, 97, 97, 97, 97] = 5 := by decide
  refine ⟨fun hd => absurd hd (by decide), fun hs => absurd hs.1 (by decide),
    fun _ => ?_⟩
  rw [hl, hu]
  norm_num [optsScenario10]

theorem scenario10_run :
    generatePassword optsScenario10 [0, 0, 0, 0, 0, 26, 26, 26, 26, 26]
      [false] = some [65, 65, 65, 65, 65, 97, 97, 97, 97, 97] := by
  have hgen : generateRandomString optsScenario10.passwordLength
      (passwordChars optsScenario10) [0, 0, 0, 0, 0, 26, 26, 26, 26, 26] =
        some ([65, 65, 65, 65, 65, 97, 97, 97, 97, 97], []) := by decide
  simp [generatePassword, generatePasswordLoop, hgen, scenario10_demo_valid]

theorem claim_C8_witness :
    generatePassword optsScenario10 [0, 0, 0, 0, 0, 26, 26, 26, 26, 26]
        [false] = some [65, 65, 65, 65, 65, 97, 97, 97, 97, 97] ∧
      classCount CharClass.uppercase
          [65, 65, 65, 65, 65, 97, 97, 97, 97, 97] = 5 ∧
      classCount CharClass.lowercase
          [65, 65, 65, 65, 65, 97, 97, 97, 97, 97] = 5 :=
  ⟨scenario10_run, (claim_C8_case_balance.2 _ _ _ scenario10_run).1,
    (claim_C8_case_balance.2 _ _ _ scenario10_run).2⟩

/-- C4.  Supersession safety: a worker response only ever reaches the
promise handlers registered under exactly the request id (and worker) the
response carries — a response whose request id has no registered handlers
is ignored — and the per-worker slice loop, having seen only same-request
timeout slices, throws `CancelError` at the first boundary where its
request id differs from the coordinator's current one, instead of
producing a result. -/
theorem claim_C4_supersession_safety :
    (∀ (registrations : List (Nat × Nat × Nat)) (worker requestId : Nat)
        (code : ResponseCode) (password : List Nat) (message : String)
        (handler : Nat) (action : Except JsError (List Nat)),
        handleWorkerMessage (buildHandlerMap registrations) worker requestId
            code password message = some (handler, action) →
        (requestId, worker, handler) ∈ registrations ∧
          action = settleFromResponse code password message) ∧
      (∀ (registrations : List (Nat × Nat × Nat)) (worker requestId : Nat)
        (code : ResponseCode) (password : List Nat) (message : String),
        lookupHandler (buildHandlerMap registrations) requestId worker =
            Option.none →
        handleWorkerMessage (buildHandlerMap registrations) worker requestId
            code password message = Option.none) ∧
      (∀ (requestId : Nat) (pre : List (Nat × Except JsError (List Nat)))
        (cur : Nat) (res : Except JsError (List Nat))
        (rest : List (Nat × Except JsError (List Nat))),
        (∀ s ∈ pre, s.1 = requestId ∧
          ∃ e, s.2 = Except.error e ∧ e.name = "TimeoutError") →
        requestId ≠ cur →
        generatePasswordOnWorker requestId (pre ++ (cur, res) :: rest) =
          Except.error createCancelError) := by
  refine ⟨?_, ?_, ?_⟩
  · intro registrations worker requestId code password message handler action h
    unfold handleWorkerMessage at h
    rcases hl : lookupHandler (buildHandlerMap registrations) requestId worker
      with _ | found
    · rw [hl] at h; cases h
    · rw [hl] at h
      have hpair : ((found, settleFromResponse code password message) :
          Nat × Except JsError (List Nat)) = (handler, action) :=
        Option.some.inj h
      have hfound : found = handler := congrArg Prod.fst hpair
      subst hfound
      exact ⟨lookupHandler_mem registrations requestId worker found hl,
        (congrArg Prod.snd hpair).symm⟩
  · intro registrations worker requestId code password message h
    unfold handleWorkerMessage
    rw [h]
  · intro requestId pre cur res rest hpre hne
    exact generatePasswordOnWorker_stale requestId pre cur res rest hpre hne

theorem claim_C4_witness :
    ((1, 0, 7) ∈ ([(1, 0, 7)] : List (Nat × Nat × Nat))) ∧
      handleWorkerMessage (buildHandlerMap [(1, 0, 7)]) 0 2 ResponseCode.OK
          [] "" = Option.none ∧
      generatePasswordOnWorker 5
          [(5, Except.error createTimeoutError),
            (9, Except.ok [65])] = Except.error createCancelError := by
  refine ⟨?_, ?_, ?_⟩
  · have h := (claim_C4_supersession_safety.1 [(1, 0, 7)] 0 1 ResponseCode.OK
      [] "" 7 (Except.ok []) rfl)
    exact h.1
  · exact claim_C4_supersession_safety.2.1 [(1, 0, 7)] 0 2 ResponseCode.OK
      [] "" rfl
  · have h := claim_C4_supersession_safety.2.2 5
      [(5, Except.error createTimeoutError)] 9 (Except.ok [65]) []
      (by
        intro s hs
        rcases List.mem_singleton.mp hs with rfl
        exact ⟨rfl, createTimeoutError, rfl, rfl⟩)
      (by decide)
    simpa using h

/-- C5 as the code actually behaves: when the secure random source is
unavailable the worker's thrown exception comes back as an `ERROR`
response, which the coordinator relays by rejecting with
`new Error(message)` — a generic error whose `name` is `"Error"`, not
`"EnvironmentError"` — and the slice loop rethrows it (it is not treated
as a timeout), so the caller receives that generic error. -/
theorem claim_C5_amended (requestId : Nat) (message : String)
    (rest : List (Nat × Except JsError (List Nat))) :
    generatePasswordOnWorker requestId
        ((requestId, settleFromResponse ResponseCode.ERROR [] message) :: rest) =
      Except.error { name := "Error", message := message } ∧
      ({ name := "Error", message := message } : JsError).name ≠
        "EnvironmentError" := by
  constructor
  · exact generatePasswordOnWorker_error requestId
      { name := "Error", message := message } rest
      ((by decide : ("Error" : String) ≠ "TimeoutError"))
  · exact (by decide : ("Error" : String) ≠ "EnvironmentError")

/-- C5 counterexample: the crypto-unavailable failure surfaces with error
name `"Error"`, not `"EnvironmentError"` — no code path constructs an
error named `"EnvironmentError"`. -/
theorem claim_C5_counterexample :
    generatePasswordOnWorker 1
        [(1, settleFromResponse ResponseCode.ERROR []
          "randomPool.buffer is undefined")] =
      Except.error (JsError.mk "Error" "randomPool.buffer is undefined") ∧
      coordinatorOutcome (AnyOutcome.allRejected
          [JsError.mk "Error" "randomPool.buffer is undefined"]) =
        Except.error (JsError.mk "Error" "randomPool.buffer is undefined") ∧
      ¬ (generatePasswordOnWorker 1
          [(1, settleFromResponse ResponseCode.ERROR []
            "randomPool.buffer is undefined")] =
        Except.error
          (JsError.mk "EnvironmentError" "randomPool.buffer is undefined")) := by
  refine ⟨rfl, rfl, ?_⟩
  intro h
  have := Except.error.inj h
  have hname : ("Error" : String) = "EnvironmentError" :=
    congrArg JsError.name this
  exact absurd hname (by decide)

/-- C6 as the code actually behaves: when every worker promise rejects,
`generatePassword` rethrows `e.errors[0]` — the rejection reason of the
first worker in pool order, whatever its kind.  If all workers timed out
that is a `TimeoutError`, but a later worker's more informative failure is
not preferred over an earlier worker's timeout. -/
theorem claim_C6_amended (e : JsError) (es : List JsError) :
    coordinatorOutcome (AnyOutcome.allRejected (e :: es)) = Except.error e := rfl

/-- C6 counterexample: worker 0 timed out while worker 1 hit the
crypto-unavailable failure, yet the surfaced error is worker 0's
`TimeoutError` — not the informative failure, and nothing named
`EnvironmentError`. -/
theorem claim_C6_counterexample :
    coordinatorOutcome (AnyOutcome.allRejected
        [createTimeoutError,
          { name := "Error", message := "no secure random source" }]) =
      Except.error createTimeoutError ∧
      createTimeoutError.name = "TimeoutError" ∧
      createTimeoutError.name ≠ "EnvironmentError" ∧
      ({ name := "Error", message := "no secure random source" } : JsError).name ≠
        "TimeoutError" := by
  refine ⟨rfl, rfl, ?_, ?_⟩ <;> decide

/-- C9 as the code actually behaves: the constructor runs the
worker-creating loop `navigator.hardwareConcurrency || 2` times, so the
pool has `hardwareConcurrency` workers whenever that value is a positive
integer (including `1`), and `2` workers only when the value is absent or
`0`; the pool always has at least one worker. -/
theorem claim_C9_amended (hardwareConcurrency : Option Nat) :
    1 ≤ numWorkers hardwareConcurrency ∧
      numWorkers Option.none = 2 ∧
      numWorkers (some 0) = 2 ∧
      (∀ n : Nat, 0 < n → numWorkers (some n) = n) := by
  refine ⟨?_, rfl, rfl, ?_⟩
  · rcases hardwareConcurrency with _ | n
    · decide
    · rw [numWorkers]
      by_cases hn : n = 0
      · rw [if_pos hn]; omega
      · rw [if_neg hn]; omega
  · intro n hn
    rw [numWorkers, if_neg (by omega)]

/-- C9 counterexample: with `navigator.hardwareConcurrency = 1` the
constructor creates exactly one worker, so the pool is not sized with a
minimum of 2. -/
theorem claim_C9_counterexample :
    numWorkers (some 1) = 1 ∧ ¬ 2 ≤ numWorkers (some 1) := by decide

theorem claim_C9_witness :
    numWorkers (some 4) = 4 ∧ 1 ≤ numWorkers (some 1) :=
  ⟨(claim_C9_amended (some 4)).2.2.2 4 (by decide),
    (claim_C9_amended (some 1)).1⟩

end PasswordGenerator
